import Mathlib

/-!
Verification of the Alpha-SQL control core: the self-consistency SQL
selector (`alphasql/runner/sql_selection.py`), the heuristic and
model-driven action selectors
(`alphasql/algorithm/llm_selector/llm_action_selector.py`), the
LLM-guided path generator
(`alphasql/algorithm/llm_solver/llm_guided_solver.py`) and the batch
runner (`alphasql/runner/llm_guided_runner.py`).

External collaborators (the SQL execution oracle, the latency
measurement, the LLM call, and the action catalogue living in modules
outside the verified sources) are passed in as explicit function
parameters, mirroring the injected-capability design of the code.
-/

namespace AlphaSQL

/-- A database row: an ordered sequence of scalar values. -/
abbrev Row := List Int

/-- Tag of a SQL execution outcome (`SQLExecutionResultType` in
`alphasql/database/sql_execution.py`). -/
inductive SQLExecutionResultType where
  | success
  | error
deriving DecidableEq, Repr, Inhabited

/-- Outcome of executing a SQL string against a database: a tag plus,
on success, the list of result rows. -/
structure SQLExecutionResult where
  result_type : SQLExecutionResultType
  result : List Row := []
  error_message : String := ""
deriving DecidableEq, Repr, Inhabited

/-- The closed catalogue of action kinds, in catalogue order. -/
inductive ActionKind where
  | RephraseQuestion
  | SchemaSelection
  | IdentifyColumnValues
  | IdentifyColumnFunctions
  | SQLGeneration
  | SQLRevision
  | EndAction
deriving DecidableEq, Repr, Inhabited

/-- Position of an action kind in the catalogue order. -/
def catRank : ActionKind → Nat
  | .RephraseQuestion => 0
  | .SchemaSelection => 1
  | .IdentifyColumnValues => 2
  | .IdentifyColumnFunctions => 3
  | .SQLGeneration => 4
  | .SQLRevision => 5
  | .EndAction => 6

/-- Node types (`MCTSNodeType`): the root plus one type per action kind. -/
inductive MCTSNodeType where
  | ROOT
  | REPHRASE_QUESTION
  | SCHEMA_SELECTION
  | IDENTIFY_COLUMN_VALUES
  | IDENTIFY_COLUMN_FUNCTIONS
  | SQL_GENERATION
  | SQL_REVISION
  | END
deriving DecidableEq, Repr, Inhabited

/-- The per-node fields of `MCTSNode` that the verified control logic
reads: node type, depth, the action that produced the node, the current
final SQL string, and the database identifier. -/
structure NodeCore where
  node_type : MCTSNodeType := .ROOT
  depth : Nat := 0
  parent_action : Option ActionKind := none
  final_sql_query : String := ""
  db_id : String := ""
deriving DecidableEq, Repr, Inhabited

/-- An `MCTSNode` together with the list of nodes on its root-to-node
path (`path_nodes`, the node included), as read by the selectors. -/
structure MCTSNode extends NodeCore where
  path_nodes : List NodeCore := []
deriving DecidableEq, Repr, Inhabited

/-- Modelled from the spec: `MCTSNode.is_terminal` is defined in
`alphasql/algorithm/mcts/mcts_node.py`, which is not among the verified
sources; per the spec, a node is terminal iff its type is End. -/
def MCTSNode.is_terminal (n : MCTSNode) : Bool :=
  n.node_type = MCTSNodeType.END

/-- Final output of the selector for one task. -/
structure SelectionDecision where
  question_id : Int
  db_id : String
  sql : String
deriving DecidableEq, Repr, Inhabited

/-! ## Self-consistency selector (`alphasql/runner/sql_selection.py`) -/

/-- Repeat count for latency measurement (`EXECUTION_TIME_REPEAT`). -/
def EXECUTION_TIME_REPEAT : Nat := 20

/-- Result groups: an insertion-ordered association list from a row set
(`frozenset(answer.result)`) to the list of path indices that produced
it, mirroring the `defaultdict(list)` updated in loop order. -/
abbrev Groups := List (Finset Row × List Nat)

/-- Append index `i` to the group keyed by `k`, creating the group at
the end if the key is new (Python dict insertion-order semantics). -/
def addToGroups (k : Finset Row) (i : Nat) : Groups → Groups
  | [] => [(k, [i])]
  | (kv, idxs) :: rest =>
    if kv = k then (kv, idxs ++ [i]) :: rest
    else (kv, idxs) :: addToGroups k i rest

/-- The grouping loop of `select_final_sql_query`: for each path result
(in order, indexed from `idx`), execute its final SQL; on success, add
the index to the invalid-inclusive groups, and to the primary groups
only when the validity predicate accepts the result. Returns
`(result_groups, result_groups_with_invalid_result)`. -/
def build_result_groups (db_path : String)
    (exec_sql : String → String → SQLExecutionResult)
    (is_valid : SQLExecutionResult → Bool) :
    Nat → List (List NodeCore) → Groups × Groups → Groups × Groups
  | _, [], acc => acc
  | idx, r :: rest, (gs, gsInv) =>
    let sql_query := (r.getLast!).final_sql_query
    let answer := exec_sql db_path sql_query
    if answer.result_type = SQLExecutionResultType.success then
      let key := answer.result.toFinset
      let gs' := if is_valid answer then addToGroups key idx gs else gs
      build_result_groups db_path exec_sql is_valid (idx + 1) rest
        (gs', addToGroups key idx gsInv)
    else
      build_result_groups db_path exec_sql is_valid (idx + 1) rest (gs, gsInv)

/-- One ranking entry `(path_indices[0], sc_score, execution_time)`. -/
abbrev RankEntry := Nat × ℚ × ℚ

/-- One iteration of the scoring loop of `select_final_sql_query`: the
entry `(path_indices[0], sc_score, execution_time)` for group `g`,
where the consistency score is the group size over the total size of
all groups and the latency is measured on the representative path
`path_indices[0]`. -/
def group_entry (db_path : String) (results : List (List NodeCore))
    (measure : String → String → Nat → ℚ) (groups : Groups)
    (g : Finset Row × List Nat) : RankEntry :=
  let sc_score : ℚ :=
    (g.2.length : ℚ) / ((groups.map fun v => v.2.length).sum : Nat)
  let execution_time :=
    measure db_path ((results.get! g.2.head!).getLast!.final_sql_query)
      EXECUTION_TIME_REPEAT
  (g.2.head!, sc_score, execution_time)

/-- The scoring loop shared by both branches of
`select_final_sql_query`, one entry per group. -/
def rank_groups (db_path : String) (results : List (List NodeCore))
    (measure : String → String → Nat → ℚ) (groups : Groups) :
    List RankEntry :=
  groups.map (group_entry db_path results measure groups)

/-- Lexicographic order on the Python sort key `(x[1], -x[2])`. -/
def lexLe (p q : ℚ × ℚ) : Prop :=
  p.1 < q.1 ∨ (p.1 = q.1 ∧ p.2 ≤ q.2)

instance (p q : ℚ × ℚ) : Decidable (lexLe p q) := by
  unfold lexLe; infer_instance

/-- The sort key `(x[1], -x[2])` of a ranking entry. -/
def rankKey (e : RankEntry) : ℚ × ℚ := (e.2.1, -e.2.2)

/-- Comparator realising `sort(key=(x[1], -x[2]), reverse=True)`:
descending lexicographic order on the key. -/
def rankLeB (a b : RankEntry) : Bool := decide (lexLe (rankKey b) (rankKey a))

/-- Sort the entries descending and take the representative path index
of the first (top-ranked) entry. -/
def pick_top (entries : List RankEntry) : Nat :=
  ((entries.mergeSort rankLeB).head!).1

/-- Shallow embedding of `select_final_sql_query`. The pickle-loaded
path list, the cached execution oracle, the validity predicate and the
latency measurement are parameters; the control flow and the
grouping/scoring/ranking logic follow the source. -/
def select_final_sql_query (question_id : Int) (db_root_dir : String)
    (exec_sql : String → String → SQLExecutionResult)
    (is_valid : SQLExecutionResult → Bool)
    (measure : String → String → Nat → ℚ)
    (results : List (List NodeCore)) : SelectionDecision :=
  if results.length = 0 then
    { question_id := question_id, db_id := "financial", sql := "ERROR" }
  else
    let db_id := ((results.head!).head!).db_id
    let db_path := db_root_dir ++ "/" ++ db_id ++ "/" ++ db_id ++ ".sqlite"
    let groups2 := build_result_groups db_path exec_sql is_valid 0 results ([], [])
    let result_groups := groups2.1
    let result_groups_with_invalid_result := groups2.2
    if result_groups.length = 0 then
      if result_groups_with_invalid_result.length = 0 then
        { question_id := question_id, db_id := db_id, sql := "ERROR" }
      else
        let path_idx := pick_top
          (rank_groups db_path results measure result_groups_with_invalid_result)
        { question_id := question_id, db_id := db_id,
          sql := (results.get! path_idx).getLast!.final_sql_query }
    else
      let path_idx := pick_top
        (rank_groups db_path results measure result_groups)
      { question_id := question_id, db_id := db_id,
        sql := (results.get! path_idx).getLast!.final_sql_query }

/-- The database identifier read from the first node of the first
persisted path (`results[0][0].db_id`). -/
def selector_db_id (results : List (List NodeCore)) : String :=
  ((results.head!).head!).db_id

/-- The sqlite path derived from the database identifier
(`f"{db_root_dir}/{db_id}/{db_id}.sqlite"`). -/
def selector_db_path (db_root_dir : String)
    (results : List (List NodeCore)) : String :=
  db_root_dir ++ "/" ++ selector_db_id results ++ "/" ++
    selector_db_id results ++ ".sqlite"

/-- Well-formedness of result groups while the grouping loop has
consumed indices below `bound`: each index list is non-empty, strictly
increasing (insertion order equals index order), and bounded. -/
def GroupsWF (bound : Nat) (gs : Groups) : Prop :=
  ∀ g ∈ gs, g.2 ≠ [] ∧ g.2.Sorted (· < ·) ∧ ∀ j ∈ g.2, j < bound

/-- The final group property used by the ranking: each group is
non-empty, and its first (representative) index is its first-seen,
minimal index. -/
def GroupsOK (gs : Groups) : Prop :=
  ∀ g ∈ gs, g.2 ≠ [] ∧ ∀ j ∈ g.2, g.2.head! ≤ j

/-! ## Action selection
(`alphasql/algorithm/llm_selector/llm_action_selector.py`) -/

/-- Whether a SQLGeneration action has already occurred anywhere on the
node's path (`has_sql_generation` in `_default_action_selection`). -/
def has_sql_generation (node : MCTSNode) : Bool :=
  node.path_nodes.any fun pn =>
    pn.parent_action = some ActionKind.SQLGeneration

/-- Whether a SchemaSelection action has already occurred anywhere on
the node's path (`has_schema_selection`). -/
def has_schema_selection (node : MCTSNode) : Bool :=
  node.path_nodes.any fun pn =>
    pn.parent_action = some ActionKind.SchemaSelection

/-- The heuristic fallback `_default_action_selection`: (1) End if legal
and SQL was already generated on the path; (2) else SQLGeneration if
legal and schema selection already occurred; (3) else SchemaSelection if
legal and not yet done; (4) else the first action of the legal list. -/
def default_action_selection (node : MCTSNode)
    (valid_actions : List ActionKind) : ActionKind :=
  if ActionKind.EndAction ∈ valid_actions ∧ has_sql_generation node = true then
    ActionKind.EndAction
  else if ActionKind.SQLGeneration ∈ valid_actions ∧ has_schema_selection node = true then
    ActionKind.SQLGeneration
  else if ActionKind.SchemaSelection ∈ valid_actions ∧ has_schema_selection node = false then
    ActionKind.SchemaSelection
  else
    valid_actions.head!

/-- Shallow embedding of `LLMActionSelector.select_action`. The model
invocation is a parameter (`Except.error` models a raised exception);
`parse` abstracts the regex search plus JSON decoding, returning the
parsed `selected_action_number` (with its documented default of 1 when
the key is missing) or `none` when no structured block is found. The
bounds check and every fallback to the heuristic follow the source. -/
def select_action (node : MCTSNode) (valid_actions : List ActionKind)
    (llm_response : Except String String)
    (parse : String → Option Int) : ActionKind :=
  match llm_response with
  | Except.error _ => default_action_selection node valid_actions
  | Except.ok response =>
    match parse response with
    | some num =>
      let selected_idx := num - 1
      if 0 ≤ selected_idx ∧ selected_idx < (valid_actions.length : Int) then
        valid_actions.get! selected_idx.toNat
      else
        default_action_selection node valid_actions
    | none => default_action_selection node valid_actions

/-! ## LLM-guided path generation
(`alphasql/algorithm/llm_solver/llm_guided_solver.py`) -/

/-- The injected capabilities used by `generate_one_path`:
`valid_actions` is `get_valid_action_space_for_node`, `select` is the
(LLM-backed) action selector, and `apply` is
`action.create_children_nodes` for each action kind. -/
structure SolverOracle where
  valid_actions : MCTSNode → List ActionKind
  select : MCTSNode → List ActionKind → ActionKind
  apply : ActionKind → MCTSNode → List MCTSNode

/-- The while-loop of `generate_one_path`. The fuel argument encodes the
remaining step budget (`max_steps - step`, decremented once per
iteration, exactly the loop guard `step < max_steps`). The loop stops on
a terminal node, exhausted steps or depth, an empty legal-action set, or
an action producing no children; otherwise it advances to the first
child and appends it to the path. Returns the current node and path. -/
def generate_loop (o : SolverOracle) (max_depth : Nat) :
    Nat → MCTSNode → List MCTSNode → MCTSNode × List MCTSNode
  | 0, current, path => (current, path)
  | fuel + 1, current, path =>
    if current.is_terminal = true then (current, path)
    else if ¬ current.depth < max_depth then (current, path)
    else
      let valid_action_space := o.valid_actions current
      if valid_action_space.isEmpty then (current, path)
      else
        let selected_action := o.select current valid_action_space
        match o.apply selected_action current with
        | [] => (current, path)
        | c :: _ => generate_loop o max_depth fuel c (path ++ [c])

/-- The state of `generate_one_path` when its while-loop exits: the
current node and the accumulated path, before any forced closure. -/
def pre_closure (o : SolverOracle) (max_steps max_depth : Nat)
    (root_node : MCTSNode) : MCTSNode × List MCTSNode :=
  generate_loop o max_depth max_steps root_node [root_node]

/-- The advancing relation of one loop iteration: `b` is the first
child produced by applying the selected action to `a`. -/
def stepRel (o : SolverOracle) (a b : MCTSNode) : Prop :=
  (o.apply (o.select a (o.valid_actions a)) a).head? = some b

/-- Shallow embedding of `generate_one_path`: run the loop from the root
with the full step budget, then, if the last node is not terminal and
its type is SQL_GENERATION or SQL_REVISION, synthesize one End action
and append its first child node when one is produced. -/
def generate_one_path (o : SolverOracle) (max_steps max_depth : Nat)
    (root_node : MCTSNode) : List MCTSNode :=
  let r := pre_closure o max_steps max_depth root_node
  let current := r.1
  let path := r.2
  if current.is_terminal = true then path
  else
    if current.node_type = MCTSNodeType.SQL_GENERATION ∨
        current.node_type = MCTSNodeType.SQL_REVISION then
      match o.apply ActionKind.EndAction current with
      | [] => path
      | c :: _ => path ++ [c]
    else path

/-- The path-collection loop of `LLMGuidedSolver.solve`. Each of the
`num_paths` generation attempts is a parameter (`Except.error` models an
exception raised during generation); a path is kept exactly when its
last node is terminal, and a failed or non-terminal attempt is skipped
without aborting the remaining iterations. The returned list is the
value pickled to the per-task artifact. -/
def solve_paths (attempts : Nat → Except String (List MCTSNode))
    (num_paths : Nat) : List (List MCTSNode) :=
  (List.range num_paths).foldl
    (fun all_reasoning_paths path_idx =>
      match attempts path_idx with
      | Except.ok path =>
        if path.getLast!.is_terminal = true then
          all_reasoning_paths ++ [path]
        else all_reasoning_paths
      | Except.error _ => all_reasoning_paths)
    []

/-- The per-attempt filter applied by `solve`: keep a generated path
exactly when it ends in a terminal node; a raised exception keeps
nothing. -/
def keep_terminal (attempts : Nat → Except String (List MCTSNode))
    (path_idx : Nat) : Option (List MCTSNode) :=
  match attempts path_idx with
  | Except.ok path =>
    if path.getLast!.is_terminal = true then some path else none
  | Except.error _ => none

/-! ## Batch runner (`alphasql/runner/llm_guided_runner.py`) -/

/-- The fields of a `Task` read by the runner. -/
structure TaskRec where
  question_id : Int
deriving DecidableEq, Repr, Inhabited

/-- The skip-on-existing filter of `run_all_tasks`: `done_task_ids` are
the integer stems of the `.pkl` artifacts already present in the save
directory (modelled as the list `existing`), and every task whose
question id is among them is dropped before solving begins. -/
def filter_done_tasks (tasks : List TaskRec) (existing : List Int) :
    List TaskRec :=
  tasks.filter fun task => decide (task.question_id ∉ existing)

/-- Modelled from the spec and the runner's IO effect: after a batch
run, the artifact ids present in the save directory are the preexisting
ones plus one id per surviving task whose `solve` returned normally
(`solve` writes `{question_id}.pkl` unconditionally on its exit path;
`run_one_task` swallows exceptions, producing no artifact — captured by
the `solve_ok` predicate). -/
def artifacts_after_run (existing : List Int) (tasks : List TaskRec)
    (solve_ok : TaskRec → Bool) : List Int :=
  existing ++
    (((filter_done_tasks tasks existing).filter solve_ok).map
      fun task => task.question_id)

/-! ## Concrete fixtures used by the evaluation witnesses -/

/-- Three persisted paths whose final SQL strings are A, A and B. -/
def resultsC1 : List (List NodeCore) :=
  [[{ final_sql_query := "A", db_id := "toy" }],
   [{ final_sql_query := "A", db_id := "toy" }],
   [{ final_sql_query := "B", db_id := "toy" }]]

/-- An oracle under which A returns the row set of row 1 and every
other query the row set of row 2. -/
def execC1 : String → String → SQLExecutionResult := fun _ sql =>
  if sql = "A" then { result_type := SQLExecutionResultType.success, result := [[1]] }
  else { result_type := SQLExecutionResultType.success, result := [[2]] }

/-- A validity predicate accepting every successful result. -/
def validC1 : SQLExecutionResult → Bool := fun _ => true

/-- A validity predicate rejecting every result (primary partition
empty, fallback partition populated). -/
def validC5 : SQLExecutionResult → Bool := fun _ => false

/-- A latency measurement giving A the slower time. -/
def measureC1 : String → String → Nat → ℚ := fun _ sql _ =>
  if sql = "A" then 5 else 3

/-! ## Theorems: action selection -/

/-- The heuristic always returns a member of a non-empty legal set. -/
lemma default_action_selection_mem (node : MCTSNode)
    (valid_actions : List ActionKind) (hne : valid_actions ≠ []) :
    default_action_selection node valid_actions ∈ valid_actions := by
  unfold default_action_selection
  split_ifs with h1 h2 h3
  · exact h1.1
  · exact h2.1
  · exact h3.1
  · exact List.head!_mem_self hne

/-- C2. The heuristic action-selection strategy applies exactly the
stated priority order: End when legal after SQL generation; else
SQLGeneration when legal after schema selection; else SchemaSelection
when legal and not yet used; else the first legal action in catalogue
order (the legal-action list is generated in catalogue order, expressed
by the `hord` hypothesis). -/
theorem C2_default_action_selection_priority (node : MCTSNode)
    (valid_actions : List ActionKind)
    (hne : valid_actions ≠ [])
    (hord : valid_actions.Pairwise fun a b => catRank a ≤ catRank b) :
    (ActionKind.EndAction ∈ valid_actions ∧ has_sql_generation node = true →
      default_action_selection node valid_actions = ActionKind.EndAction) ∧
    (¬ (ActionKind.EndAction ∈ valid_actions ∧ has_sql_generation node = true) →
      ActionKind.SQLGeneration ∈ valid_actions ∧ has_schema_selection node = true →
      default_action_selection node valid_actions = ActionKind.SQLGeneration) ∧
    (¬ (ActionKind.EndAction ∈ valid_actions ∧ has_sql_generation node = true) →
      ¬ (ActionKind.SQLGeneration ∈ valid_actions ∧ has_schema_selection node = true) →
      ActionKind.SchemaSelection ∈ valid_actions ∧ has_schema_selection node = false →
      default_action_selection node valid_actions = ActionKind.SchemaSelection) ∧
    (¬ (ActionKind.EndAction ∈ valid_actions ∧ has_sql_generation node = true) →
      ¬ (ActionKind.SQLGeneration ∈ valid_actions ∧ has_schema_selection node = true) →
      ¬ (ActionKind.SchemaSelection ∈ valid_actions ∧ has_schema_selection node = false) →
      default_action_selection node valid_actions ∈ valid_actions ∧
        ∀ a ∈ valid_actions,
          catRank (default_action_selection node valid_actions) ≤ catRank a) := by
  refine ⟨fun h1 => ?_, fun h1 h2 => ?_, fun h1 h2 h3 => ?_, fun h1 h2 h3 => ?_⟩
  · unfold default_action_selection
    rw [if_pos h1]
  · unfold default_action_selection
    rw [if_neg h1, if_pos h2]
  · unfold default_action_selection
    rw [if_neg h1, if_neg h2, if_pos h3]
  · unfold default_action_selection
    rw [if_neg h1, if_neg h2, if_neg h3]
    match valid_actions, hne with
    | a :: as, _ =>
      refine ⟨List.head!_mem_self (by simp), ?_⟩
      intro b hb
      have hha : (a :: as).head! = a := rfl
      rw [hha]
      rcases List.mem_cons.mp hb with h | h
      · exact h ▸ Nat.le_refl _
      · exact (List.pairwise_cons.mp hord).1 b h

/-- Witness for C2 at a concrete node and legal-action list. -/
theorem C2_default_action_selection_priority_witness :
    (([ActionKind.SchemaSelection, ActionKind.SQLRevision] : List ActionKind) ≠ [] ∧
      ([ActionKind.SchemaSelection, ActionKind.SQLRevision] : List ActionKind).Pairwise
        (fun a b => catRank a ≤ catRank b)) ∧
    (ActionKind.EndAction ∈ [ActionKind.SchemaSelection, ActionKind.SQLRevision] ∧
        has_sql_generation { path_nodes := [{}] } = true →
      default_action_selection { path_nodes := [{}] }
        [ActionKind.SchemaSelection, ActionKind.SQLRevision] = ActionKind.EndAction) ∧
    (¬ (ActionKind.EndAction ∈ [ActionKind.SchemaSelection, ActionKind.SQLRevision] ∧
        has_sql_generation { path_nodes := [{}] } = true) →
      ActionKind.SQLGeneration ∈ [ActionKind.SchemaSelection, ActionKind.SQLRevision] ∧
        has_schema_selection { path_nodes := [{}] } = true →
      default_action_selection { path_nodes := [{}] }
        [ActionKind.SchemaSelection, ActionKind.SQLRevision] = ActionKind.SQLGeneration) ∧
    (¬ (ActionKind.EndAction ∈ [ActionKind.SchemaSelection, ActionKind.SQLRevision] ∧
        has_sql_generation { path_nodes := [{}] } = true) →
      ¬ (ActionKind.SQLGeneration ∈ [ActionKind.SchemaSelection, ActionKind.SQLRevision] ∧
        has_schema_selection { path_nodes := [{}] } = true) →
      ActionKind.SchemaSelection ∈ [ActionKind.SchemaSelection, ActionKind.SQLRevision] ∧
        has_schema_selection { path_nodes := [{}] } = false →
      default_action_selection { path_nodes := [{}] }
        [ActionKind.SchemaSelection, ActionKind.SQLRevision] = ActionKind.SchemaSelection) ∧
    (¬ (ActionKind.EndAction ∈ [ActionKind.SchemaSelection, ActionKind.SQLRevision] ∧
        has_sql_generation { path_nodes := [{}] } = true) →
      ¬ (ActionKind.SQLGeneration ∈ [ActionKind.SchemaSelection, ActionKind.SQLRevision] ∧
        has_schema_selection { path_nodes := [{}] } = true) →
      ¬ (ActionKind.SchemaSelection ∈ [ActionKind.SchemaSelection, ActionKind.SQLRevision] ∧
        has_schema_selection { path_nodes := [{}] } = false) →
      default_action_selection { path_nodes := [{}] }
        [ActionKind.SchemaSelection, ActionKind.SQLRevision] ∈
          [ActionKind.SchemaSelection, ActionKind.SQLRevision] ∧
        ∀ a ∈ [ActionKind.SchemaSelection, ActionKind.SQLRevision],
          catRank (default_action_selection { path_nodes := [{}] }
            [ActionKind.SchemaSelection, ActionKind.SQLRevision]) ≤ catRank a) :=
  ⟨⟨by decide, by decide⟩,
    C2_default_action_selection_priority { path_nodes := [{}] }
      [ActionKind.SchemaSelection, ActionKind.SQLRevision] (by decide) (by decide)⟩

/-- C3. Model-driven selection is total (it returns a member of the
non-empty legal-action list) and, whenever the model call raises, the
response has no structured block, or the parsed index falls outside
`[1, |valid_actions|]`, it returns exactly the heuristic choice. -/
theorem C3_select_action_fallback (node : MCTSNode)
    (valid_actions : List ActionKind)
    (llm_response : Except String String) (parse : String → Option Int)
    (hne : valid_actions ≠ []) :
    select_action node valid_actions llm_response parse ∈ valid_actions ∧
    ((∃ e, llm_response = Except.error e) ∨
      (∃ r, llm_response = Except.ok r ∧ parse r = none) ∨
      (∃ r n, llm_response = Except.ok r ∧ parse r = some n ∧
        (n < 1 ∨ (valid_actions.length : Int) < n)) →
      select_action node valid_actions llm_response parse =
        default_action_selection node valid_actions) := by
  have hok : ∀ r, select_action node valid_actions (Except.ok r) parse =
      (match parse r with
       | some num =>
         if 0 ≤ num - 1 ∧ num - 1 < (valid_actions.length : Int) then
           valid_actions.get! (num - 1).toNat
         else default_action_selection node valid_actions
       | none => default_action_selection node valid_actions) := fun _ => rfl
  constructor
  · rcases llm_response with e | response
    · exact default_action_selection_mem node valid_actions hne
    · rw [hok]
      cases hp : parse response with
      | none => exact default_action_selection_mem node valid_actions hne
      | some num =>
        show (if 0 ≤ num - 1 ∧ num - 1 < (valid_actions.length : Int) then
            valid_actions.get! (num - 1).toNat
          else default_action_selection node valid_actions) ∈ valid_actions
        split_ifs with hrange
        · have hlt : (num - 1).toNat < valid_actions.length := by omega
          rw [List.get!_eq_getElem!, getElem!_pos valid_actions _ hlt]
          exact List.getElem_mem hlt
        · exact default_action_selection_mem node valid_actions hne
  · intro hfail
    rcases hfail with ⟨e, he⟩ | ⟨r, hr, hpr⟩ | ⟨r, n, hr, hpr, hout⟩
    · rw [he]; rfl
    · rw [hr, hok, hpr]
    · rw [hr, hok, hpr]
      show (if 0 ≤ n - 1 ∧ n - 1 < (valid_actions.length : Int) then
          valid_actions.get! (n - 1).toNat
        else default_action_selection node valid_actions) =
        default_action_selection node valid_actions
      rw [if_neg (by omega)]

/-- Witness for C3: a response with no structured block falls back to
the heuristic. -/
theorem C3_select_action_fallback_witness :
    (([ActionKind.RephraseQuestion] : List ActionKind) ≠ []) ∧
    (select_action { path_nodes := [{}] } [ActionKind.RephraseQuestion]
        (Except.ok "no json here") (fun _ => none) ∈
      ([ActionKind.RephraseQuestion] : List ActionKind) ∧
    ((∃ e, (Except.ok "no json here" : Except String String) = Except.error e) ∨
      (∃ r, (Except.ok "no json here" : Except String String) = Except.ok r ∧
        (fun (_ : String) => (none : Option Int)) r = none) ∨
      (∃ r n, (Except.ok "no json here" : Except String String) = Except.ok r ∧
        (fun (_ : String) => (none : Option Int)) r = some n ∧
        (n < 1 ∨ (([ActionKind.RephraseQuestion] : List ActionKind).length : Int) < n)) →
      select_action { path_nodes := [{}] } [ActionKind.RephraseQuestion]
          (Except.ok "no json here") (fun _ => none) =
        default_action_selection { path_nodes := [{}] } [ActionKind.RephraseQuestion])) :=
  ⟨by decide,
    C3_select_action_fallback { path_nodes := [{}] } [ActionKind.RephraseQuestion]
      (Except.ok "no json here") (fun _ => none) (by decide)⟩

/-! ## Theorems: path generation -/

/-- Unfolding of one iteration of the generation loop. -/
lemma generate_loop_succ (o : SolverOracle) (max_depth fuel : Nat)
    (current : MCTSNode) (path : List MCTSNode) :
    generate_loop o max_depth (fuel + 1) current path =
      (if current.is_terminal = true then (current, path)
       else if ¬ current.depth < max_depth then (current, path)
       else if (o.valid_actions current).isEmpty then (current, path)
       else
         match o.apply (o.select current (o.valid_actions current)) current with
         | [] => (current, path)
         | c :: _ => generate_loop o max_depth fuel c (path ++ [c])) := rfl

/-- Invariants and stopping conditions of the generation loop: the
final current node is the last path element, at most `fuel` nodes are
appended, consecutive nodes are linked by first-child advancement, the
input path is preserved as a prefix, and on return either the node is
terminal, the step budget is consumed, the depth budget is reached, no
action is legal, or the selected action produced no children. -/
lemma generate_loop_spec (o : SolverOracle) (max_depth : Nat) :
    ∀ (fuel : Nat) (current : MCTSNode) (path : List MCTSNode),
      path.getLast? = some current →
      List.Chain' (stepRel o) path →
      (generate_loop o max_depth fuel current path).2.getLast? =
          some (generate_loop o max_depth fuel current path).1 ∧
      (generate_loop o max_depth fuel current path).2.length ≤ path.length + fuel ∧
      List.Chain' (stepRel o) (generate_loop o max_depth fuel current path).2 ∧
      (∃ t, (generate_loop o max_depth fuel current path).2 = path ++ t) ∧
      ((generate_loop o max_depth fuel current path).1.is_terminal = true ∨
       (generate_loop o max_depth fuel current path).2.length = path.length + fuel ∨
       max_depth ≤ (generate_loop o max_depth fuel current path).1.depth ∨
       o.valid_actions (generate_loop o max_depth fuel current path).1 = [] ∨
       o.apply (o.select (generate_loop o max_depth fuel current path).1
           (o.valid_actions (generate_loop o max_depth fuel current path).1))
           (generate_loop o max_depth fuel current path).1 = []) := by
  intro fuel
  induction fuel with
  | zero =>
    intro current path hlast hchain
    exact ⟨hlast, Nat.le_add_right _ _, hchain,
      ⟨[], (List.append_nil path).symm⟩, Or.inr (Or.inl (Nat.add_zero _).symm)⟩
  | succ fuel ih =>
    intro current path hlast hchain
    rw [generate_loop_succ]
    by_cases hterm : current.is_terminal = true
    · rw [if_pos hterm]
      exact ⟨hlast, Nat.le_add_right _ _, hchain,
        ⟨[], (List.append_nil path).symm⟩, Or.inl hterm⟩
    · rw [if_neg hterm]
      by_cases hdepth : current.depth < max_depth
      · rw [if_neg (not_not_intro hdepth)]
        by_cases hva : (o.valid_actions current).isEmpty
        · rw [if_pos hva]
          exact ⟨hlast, Nat.le_add_right _ _, hchain,
            ⟨[], (List.append_nil path).symm⟩,
            Or.inr (Or.inr (Or.inr (Or.inl (List.isEmpty_iff.mp hva))))⟩
        · rw [if_neg hva]
          cases happ : o.apply (o.select current (o.valid_actions current)) current with
          | nil =>
            exact ⟨hlast, Nat.le_add_right _ _, hchain,
              ⟨[], (List.append_nil path).symm⟩,
              Or.inr (Or.inr (Or.inr (Or.inr happ)))⟩
          | cons c cs =>
            have hlast2 : (path ++ [c]).getLast? = some c := List.getLast?_concat path
            have hchain2 : List.Chain' (stepRel o) (path ++ [c]) := by
              refine List.Chain'.append hchain (List.chain'_singleton c) ?_
              intro x hx y hy
              rw [hlast] at hx
              cases hx
              cases hy
              unfold stepRel
              rw [happ]
              rfl
            obtain ⟨ih1, ih2, ih3, ⟨t, ih4⟩, ih5⟩ :=
              ih c (path ++ [c]) hlast2 hchain2
            have hl : (path ++ [c]).length = path.length + 1 := by simp
            have hlen : (generate_loop o max_depth fuel c (path ++ [c])).2.length ≤
                path.length + (fuel + 1) := by omega
            have hpre : (generate_loop o max_depth fuel c (path ++ [c])).2 =
                path ++ (c :: t) := by
              rw [ih4, List.append_assoc]
              rfl
            have hdisj : (generate_loop o max_depth fuel c (path ++ [c])).1.is_terminal = true ∨
                (generate_loop o max_depth fuel c (path ++ [c])).2.length =
                  path.length + (fuel + 1) ∨
                max_depth ≤ (generate_loop o max_depth fuel c (path ++ [c])).1.depth ∨
                o.valid_actions (generate_loop o max_depth fuel c (path ++ [c])).1 = [] ∨
                o.apply (o.select (generate_loop o max_depth fuel c (path ++ [c])).1
                    (o.valid_actions (generate_loop o max_depth fuel c (path ++ [c])).1))
                    (generate_loop o max_depth fuel c (path ++ [c])).1 = [] := by
              rcases ih5 with h | h | h | h | h
              · exact Or.inl h
              · exact Or.inr (Or.inl (by omega))
              · exact Or.inr (Or.inr (Or.inl h))
              · exact Or.inr (Or.inr (Or.inr (Or.inl h)))
              · exact Or.inr (Or.inr (Or.inr (Or.inr h)))
            exact ⟨ih1, hlen, ih3, ⟨c :: t, hpre⟩, hdisj⟩
      · rw [if_pos hdepth]
        exact ⟨hlast, Nat.le_add_right _ _, hchain,
          ⟨[], (List.append_nil path).symm⟩,
          Or.inr (Or.inr (Or.inl (Nat.le_of_not_lt hdepth)))⟩

/-- C7. The path-generation loop terminates on every input with at
most `max_steps` advancing iterations: the result extends the singleton
root path, its last element is the final current node, each step
advances to the first returned child, and the loop stopped because the
node became terminal, the step budget was consumed, the depth budget
was reached, no legal action existed, or the applied action produced no
children — never by an exception (the embedding is a total function). -/
theorem C7_generate_loop_terminates (o : SolverOracle)
    (max_steps max_depth : Nat) (root_node : MCTSNode) :
    (pre_closure o max_steps max_depth root_node).2.getLast? =
        some (pre_closure o max_steps max_depth root_node).1 ∧
    (pre_closure o max_steps max_depth root_node).2.length ≤ max_steps + 1 ∧
    List.Chain' (stepRel o) (pre_closure o max_steps max_depth root_node).2 ∧
    (∃ t, (pre_closure o max_steps max_depth root_node).2 = root_node :: t) ∧
    ((pre_closure o max_steps max_depth root_node).1.is_terminal = true ∨
     (pre_closure o max_steps max_depth root_node).2.length = max_steps + 1 ∨
     max_depth ≤ (pre_closure o max_steps max_depth root_node).1.depth ∨
     o.valid_actions (pre_closure o max_steps max_depth root_node).1 = [] ∨
     o.apply (o.select (pre_closure o max_steps max_depth root_node).1
         (o.valid_actions (pre_closure o max_steps max_depth root_node).1))
         (pre_closure o max_steps max_depth root_node).1 = []) := by
  obtain ⟨h1, h2, h3, ⟨t, h4⟩, h5⟩ :=
    generate_loop_spec o max_depth max_steps root_node [root_node] rfl
      (List.chain'_singleton root_node)
  unfold pre_closure
  refine ⟨h1, by simpa [Nat.add_comm] using h2, h3, ⟨t, by simpa using h4⟩, ?_⟩
  rcases h5 with h | h | h | h | h
  · exact Or.inl h
  · exact Or.inr (Or.inl (by simpa [Nat.add_comm] using h))
  · exact Or.inr (Or.inr (Or.inl h))
  · exact Or.inr (Or.inr (Or.inr (Or.inl h)))
  · exact Or.inr (Or.inr (Or.inr (Or.inr h)))

/-- Unfolding of the forced-closure postlude of `generate_one_path`. -/
lemma generate_one_path_eq (o : SolverOracle) (max_steps max_depth : Nat)
    (root_node : MCTSNode) :
    generate_one_path o max_steps max_depth root_node =
      (if (pre_closure o max_steps max_depth root_node).1.is_terminal = true then
        (pre_closure o max_steps max_depth root_node).2
      else if (pre_closure o max_steps max_depth root_node).1.node_type =
            MCTSNodeType.SQL_GENERATION ∨
          (pre_closure o max_steps max_depth root_node).1.node_type =
            MCTSNodeType.SQL_REVISION then
        match o.apply ActionKind.EndAction
            (pre_closure o max_steps max_depth root_node).1 with
        | [] => (pre_closure o max_steps max_depth root_node).2
        | c :: _ => (pre_closure o max_steps max_depth root_node).2 ++ [c]
      else (pre_closure o max_steps max_depth root_node).2) := rfl

/-- C6. Forced closure: when the loop stops on a non-terminal node, the
generator synthesizes one End action exactly for a last node of type
SQL_GENERATION or SQL_REVISION, appending the first produced child —
which (by the spec of the End action, `hEnd`) is terminal and carries
the pre-closure final SQL forward; when the End action produces no
child, or for any other last node type, the path is returned
unchanged (hence non-terminal). -/
theorem C6_forced_closure (o : SolverOracle) (max_steps max_depth : Nat)
    (root_node : MCTSNode)
    (hEnd : ∀ n c, c ∈ o.apply ActionKind.EndAction n →
      c.node_type = MCTSNodeType.END ∧ c.final_sql_query = n.final_sql_query) :
    (pre_closure o max_steps max_depth root_node).2.getLast? =
      some (pre_closure o max_steps max_depth root_node).1 ∧
    ((pre_closure o max_steps max_depth root_node).1.is_terminal = false →
      (((pre_closure o max_steps max_depth root_node).1.node_type =
            MCTSNodeType.SQL_GENERATION ∨
        (pre_closure o max_steps max_depth root_node).1.node_type =
            MCTSNodeType.SQL_REVISION) →
        (o.apply ActionKind.EndAction
            (pre_closure o max_steps max_depth root_node).1 = [] →
          generate_one_path o max_steps max_depth root_node =
            (pre_closure o max_steps max_depth root_node).2) ∧
        (∀ c cs, o.apply ActionKind.EndAction
            (pre_closure o max_steps max_depth root_node).1 = c :: cs →
          generate_one_path o max_steps max_depth root_node =
            (pre_closure o max_steps max_depth root_node).2 ++ [c] ∧
          c.is_terminal = true ∧
          c.final_sql_query =
            (pre_closure o max_steps max_depth root_node).1.final_sql_query ∧
          (generate_one_path o max_steps max_depth root_node).getLast? =
            some c)) ∧
      (¬ ((pre_closure o max_steps max_depth root_node).1.node_type =
            MCTSNodeType.SQL_GENERATION ∨
          (pre_closure o max_steps max_depth root_node).1.node_type =
            MCTSNodeType.SQL_REVISION) →
        generate_one_path o max_steps max_depth root_node =
          (pre_closure o max_steps max_depth root_node).2)) := by
  constructor
  · exact (generate_loop_spec o max_depth max_steps root_node [root_node] rfl
      (List.chain'_singleton root_node)).1
  · intro hterm
    have hterm2 : ¬ (pre_closure o max_steps max_depth root_node).1.is_terminal = true := by
      simp [hterm]
    constructor
    · intro htype
      constructor
      · intro happ
        rw [generate_one_path_eq, if_neg hterm2, if_pos htype, happ]
      · intro c cs happ
        have hc := hEnd (pre_closure o max_steps max_depth root_node).1 c
          (by rw [happ]; exact List.mem_cons_self c cs)
        have hpath : generate_one_path o max_steps max_depth root_node =
            (pre_closure o max_steps max_depth root_node).2 ++ [c] := by
          rw [generate_one_path_eq, if_neg hterm2, if_pos htype, happ]
        refine ⟨hpath, ?_, hc.2, ?_⟩
        · unfold MCTSNode.is_terminal
          rw [hc.1]
          rfl
        · rw [hpath]
          exact List.getLast?_concat _
    · intro htype
      rw [generate_one_path_eq, if_neg hterm2, if_neg htype]

/-- Witness for C6: a zero-budget loop leaves a non-terminal
SQL_GENERATION root, and the synthesized End action closes the path
with the same final SQL. -/
theorem C6_forced_closure_witness :
    (∀ n c, c ∈ SolverOracle.apply
        ⟨fun _ => [], fun _ _ => ActionKind.EndAction,
          fun a n => match a with
            | ActionKind.EndAction =>
              [{ node_type := MCTSNodeType.END, depth := n.depth + 1,
                 parent_action := some ActionKind.EndAction,
                 final_sql_query := n.final_sql_query, db_id := n.db_id,
                 path_nodes := [] }]
            | _ => []⟩ ActionKind.EndAction n →
      c.node_type = MCTSNodeType.END ∧
        c.final_sql_query = n.final_sql_query) ∧
    ((pre_closure
        ⟨fun _ => [], fun _ _ => ActionKind.EndAction,
          fun a n => match a with
            | ActionKind.EndAction =>
              [{ node_type := MCTSNodeType.END, depth := n.depth + 1,
                 parent_action := some ActionKind.EndAction,
                 final_sql_query := n.final_sql_query, db_id := n.db_id,
                 path_nodes := [] }]
            | _ => []⟩ 0 5
        { node_type := MCTSNodeType.SQL_GENERATION, depth := 1,
          final_sql_query := "SELECT 1" }).2.getLast? =
      some (pre_closure
        ⟨fun _ => [], fun _ _ => ActionKind.EndAction,
          fun a n => match a with
            | ActionKind.EndAction =>
              [{ node_type := MCTSNodeType.END, depth := n.depth + 1,
                 parent_action := some ActionKind.EndAction,
                 final_sql_query := n.final_sql_query, db_id := n.db_id,
                 path_nodes := [] }]
            | _ => []⟩ 0 5
        { node_type := MCTSNodeType.SQL_GENERATION, depth := 1,
          final_sql_query := "SELECT 1" }).1) := by
  have hEnd : ∀ n c, c ∈ SolverOracle.apply
      ⟨fun _ => [], fun _ _ => ActionKind.EndAction,
        fun a n => match a with
          | ActionKind.EndAction =>
            [{ node_type := MCTSNodeType.END, depth := n.depth + 1,
               parent_action := some ActionKind.EndAction,
               final_sql_query := n.final_sql_query, db_id := n.db_id,
               path_nodes := [] }]
          | _ => []⟩ ActionKind.EndAction n →
      c.node_type = MCTSNodeType.END ∧
        c.final_sql_query = n.final_sql_query := by
    intro n c hc
    cases hc with
    | head => exact ⟨rfl, rfl⟩
    | tail _ h => cases h
  exact ⟨hEnd,
    (C6_forced_closure _ 0 5
      { node_type := MCTSNodeType.SQL_GENERATION, depth := 1,
        final_sql_query := "SELECT 1" } hEnd).1⟩

/-! ## Theorems: solve batch and runner -/

/-- The collection fold of `solve` is the `keep_terminal` filter over
the attempt indices. -/
lemma solve_paths_eq_filterMap (attempts : Nat → Except String (List MCTSNode))
    (num_paths : Nat) :
    solve_paths attempts num_paths =
      (List.range num_paths).filterMap (keep_terminal attempts) := by
  unfold solve_paths
  have hgen : ∀ (l : List Nat) (acc : List (List MCTSNode)),
      l.foldl (fun all_reasoning_paths path_idx =>
        match attempts path_idx with
        | Except.ok path =>
          if path.getLast!.is_terminal = true then
            all_reasoning_paths ++ [path]
          else all_reasoning_paths
        | Except.error _ => all_reasoning_paths) acc =
        acc ++ l.filterMap (keep_terminal attempts) := by
    intro l
    induction l with
    | nil => intro acc; simp
    | cons i l ih =>
      intro acc
      rw [List.foldl_cons, List.filterMap_cons, ih]
      unfold keep_terminal
      cases attempts i with
      | error e => simp
      | ok path =>
        by_cases hterm : path.getLast!.is_terminal = true
        · simp [hterm]
        · simp [hterm]
  rw [hgen, List.nil_append]

/-- C8. The persisted path set of one `solve` batch contains exactly the
generated paths whose last node is terminal: it equals the in-order
filter of the `num_paths` attempts keeping terminal-ending paths, and
every kept path ends terminal; failed or non-terminal attempts are
dropped without aborting later attempts. -/
theorem C8_solve_keeps_exactly_terminal_paths
    (attempts : Nat → Except String (List MCTSNode)) (num_paths : Nat) :
    solve_paths attempts num_paths =
      (List.range num_paths).filterMap (keep_terminal attempts) ∧
    ∀ path ∈ solve_paths attempts num_paths,
      path.getLast!.is_terminal = true := by
  refine ⟨solve_paths_eq_filterMap attempts num_paths, ?_⟩
  intro path hp
  rw [solve_paths_eq_filterMap] at hp
  rcases List.mem_filterMap.mp hp with ⟨i, _, hk⟩
  unfold keep_terminal at hk
  split at hk
  · split_ifs at hk with hterm
    · injection hk with hk2
      rw [← hk2]
      exact hterm
  · cases hk

/-- C9. Batch re-invocation is idempotent at the filter level: the task
list actually solved consists exactly of the tasks whose question id has
no persisted artifact, and every task with an existing artifact is
removed before solving begins. -/
theorem C9_done_tasks_skipped (tasks : List TaskRec) (existing : List Int) :
    (∀ task, task ∈ filter_done_tasks tasks existing ↔
      task ∈ tasks ∧ task.question_id ∉ existing) ∧
    ∀ task ∈ tasks, task.question_id ∈ existing →
      task ∉ filter_done_tasks tasks existing := by
  have hmem : ∀ task, task ∈ filter_done_tasks tasks existing ↔
      task ∈ tasks ∧ task.question_id ∉ existing := by
    intro task
    unfold filter_done_tasks
    rw [List.mem_filter]
    simp
  refine ⟨hmem, ?_⟩
  intro task _ hdone hcontra
  exact ((hmem task).mp hcontra).2 hdone

/-- C10. `solve` persists an artifact whenever it returns normally, an
empty list when no attempt produced a terminal path; and since the
artifact id then exists in the save directory, no task whose solve
completed (including with zero successful paths) is re-attempted on a
batch re-run. -/
theorem C10_empty_artifact_never_reattempted
    (attempts : Nat → Except String (List MCTSNode)) (num_paths : Nat)
    (tasks : List TaskRec) (existing : List Int)
    (solve_ok : TaskRec → Bool) (task : TaskRec)
    (hfail : ∀ i, i < num_paths → ∀ path, attempts i = Except.ok path →
      path.getLast!.is_terminal = false) :
    solve_paths attempts num_paths = [] ∧
    (task ∈ tasks → solve_ok task = true →
      task ∉ filter_done_tasks tasks
        (artifacts_after_run existing tasks solve_ok)) := by
  constructor
  · rw [solve_paths_eq_filterMap]
    rw [List.filterMap_eq_nil_iff]
    intro i hi
    unfold keep_terminal
    split
    · next path heq =>
        have hterm := hfail i (List.mem_range.mp hi) path heq
        rw [if_neg (by simp [hterm])]
    · rfl
  · intro htask hok hcontra
    have hidmem : task.question_id ∈ artifacts_after_run existing tasks solve_ok := by
      unfold artifacts_after_run
      rw [List.mem_append]
      by_cases hex : task.question_id ∈ existing
      · exact Or.inl hex
      · refine Or.inr (List.mem_map.mpr ⟨task, ?_, rfl⟩)
        rw [List.mem_filter]
        refine ⟨?_, hok⟩
        unfold filter_done_tasks
        rw [List.mem_filter]
        exact ⟨htask, by simpa using hex⟩
    unfold filter_done_tasks at hcontra
    rw [List.mem_filter] at hcontra
    have := hcontra.2
    simp at this
    exact this hidmem

/-- Witness for C10: two attempts, both raising, persist the empty list,
and a task with identifier 5 is never re-attempted once recorded. -/
theorem C10_empty_artifact_never_reattempted_witness :
    (∀ i, i < 2 → ∀ path,
      (fun _ => (Except.error "boom" : Except String (List MCTSNode))) i =
        Except.ok path → path.getLast!.is_terminal = false) ∧
    (solve_paths (fun _ => (Except.error "boom" : Except String (List MCTSNode))) 2 = [] ∧
      ((⟨5⟩ : TaskRec) ∈ [(⟨5⟩ : TaskRec)] →
        (fun (_ : TaskRec) => true) ⟨5⟩ = true →
        (⟨5⟩ : TaskRec) ∉ filter_done_tasks [(⟨5⟩ : TaskRec)]
          (artifacts_after_run [] [(⟨5⟩ : TaskRec)] (fun _ => true)))) :=
  have h : ∀ i, i < 2 → ∀ path,
      (fun _ => (Except.error "boom" : Except String (List MCTSNode))) i =
        Except.ok path → path.getLast!.is_terminal = false :=
    fun _ _ _ hp => Except.noConfusion hp
  ⟨h, C10_empty_artifact_never_reattempted
    (fun _ => Except.error "boom") 2 [⟨5⟩] [] (fun _ => true) ⟨5⟩ h⟩

/-! ## Theorems: self-consistency selection -/

lemma lexLe_refl (p : ℚ × ℚ) : lexLe p p := Or.inr ⟨rfl, le_refl _⟩

lemma lexLe_trans (p q r : ℚ × ℚ) (h1 : lexLe p q) (h2 : lexLe q r) :
    lexLe p r := by
  rcases h1 with h1 | ⟨h1, h1b⟩ <;> rcases h2 with h2 | ⟨h2, h2b⟩
  · exact Or.inl (lt_trans h1 h2)
  · exact Or.inl (h2 ▸ h1)
  · exact Or.inl (h1 ▸ h2)
  · exact Or.inr ⟨h1.trans h2, le_trans h1b h2b⟩

lemma lexLe_total (p q : ℚ × ℚ) : lexLe p q ∨ lexLe q p := by
  rcases lt_trichotomy p.1 q.1 with h | h | h
  · exact Or.inl (Or.inl h)
  · rcases le_total p.2 q.2 with h2 | h2
    · exact Or.inl (Or.inr ⟨h, h2⟩)
    · exact Or.inr (Or.inr ⟨h.symm, h2⟩)
  · exact Or.inr (Or.inl h)

/-- The head of the descending stable sort is a ranking maximum: there
is an entry of the list whose representative index `pick_top` returns
and whose key dominates every entry in the `(score desc, latency asc)`
lexicographic order. -/
lemma pick_top_spec (entries : List RankEntry) (hne : entries ≠ []) :
    ∃ e ∈ entries, pick_top entries = e.1 ∧
      ∀ x ∈ entries, lexLe (rankKey x) (rankKey e) := by
  have htrans : ∀ a b c : RankEntry, rankLeB a b → rankLeB b c → rankLeB a c := by
    intro a b c hab hbc
    have hab2 : lexLe (rankKey b) (rankKey a) := of_decide_eq_true hab
    have hbc2 : lexLe (rankKey c) (rankKey b) := of_decide_eq_true hbc
    exact decide_eq_true (lexLe_trans _ _ _ hbc2 hab2)
  have htotal : ∀ a b : RankEntry, rankLeB a b || rankLeB b a := by
    intro a b
    rw [Bool.or_eq_true]
    rcases lexLe_total (rankKey b) (rankKey a) with h | h
    · exact Or.inl (decide_eq_true h)
    · exact Or.inr (decide_eq_true h)
  have hsorted := List.sorted_mergeSort htrans htotal entries
  have hperm := List.mergeSort_perm entries rankLeB
  cases h : entries.mergeSort rankLeB with
  | nil =>
    exfalso
    apply hne
    have hlen := (List.mergeSort_perm entries rankLeB).length_eq
    rw [h] at hlen
    exact List.length_eq_zero.mp hlen.symm
  | cons e rest =>
    refine ⟨e, ?_, ?_, ?_⟩
    · have : e ∈ entries.mergeSort rankLeB := by
        rw [h]; exact List.mem_cons_self e rest
      exact List.mem_mergeSort.mp this
    · unfold pick_top
      rw [h]
      rfl
    · intro x hx
      have hx2 : x ∈ entries.mergeSort rankLeB := List.mem_mergeSort.mpr hx
      rw [h] at hx2
      rcases List.mem_cons.mp hx2 with rfl | hx3
      · exact lexLe_refl _
      · have hpw := hsorted
        rw [h] at hpw
        have hb := (List.pairwise_cons.mp hpw).1 x hx3
        exact of_decide_eq_true hb

lemma GroupsWF_mono (i : Nat) (gs : Groups) (h : GroupsWF i gs) :
    GroupsWF (i + 1) gs := fun g hg =>
  ⟨(h g hg).1, (h g hg).2.1, fun j hj => Nat.lt_succ_of_lt ((h g hg).2.2 j hj)⟩

/-- Appending the current index preserves group well-formedness. -/
lemma addToGroups_wf (k : Finset Row) (i : Nat) :
    ∀ (gs : Groups), GroupsWF i gs → GroupsWF (i + 1) (addToGroups k i gs) := by
  intro gs
  induction gs with
  | nil =>
    intro _ g hg
    rw [addToGroups] at hg
    rw [List.mem_singleton] at hg
    subst hg
    refine ⟨by simp, List.sorted_singleton i, ?_⟩
    intro j hj
    rw [List.mem_singleton] at hj
    omega
  | cons p rest ih =>
    intro h g hg
    obtain ⟨kv, idxs⟩ := p
    rw [addToGroups] at hg
    split_ifs at hg with hk
    · rcases List.mem_cons.mp hg with rfl | hg2
      · have hp := h (kv, idxs) (List.mem_cons_self _ _)
        refine ⟨by simp, ?_, ?_⟩
        · refine List.pairwise_append.mpr
            ⟨hp.2.1, List.pairwise_singleton _ _, ?_⟩
          intro a ha b hb
          rw [List.mem_singleton] at hb
          subst hb
          exact hp.2.2 a ha
        · intro j hj
          rcases List.mem_append.mp hj with hj | hj
          · exact Nat.lt_succ_of_lt (hp.2.2 j hj)
          · rw [List.mem_singleton] at hj
            omega
      · have hp := h g (List.mem_cons_of_mem _ hg2)
        exact ⟨hp.1, hp.2.1, fun j hj => Nat.lt_succ_of_lt (hp.2.2 j hj)⟩
    · rcases List.mem_cons.mp hg with rfl | hg2
      · have hp := h (kv, idxs) (List.mem_cons_self _ _)
        exact ⟨hp.1, hp.2.1, fun j hj => Nat.lt_succ_of_lt (hp.2.2 j hj)⟩
      · exact ih (fun g2 hg2b => h g2 (List.mem_cons_of_mem _ hg2b)) g hg2

/-- Unfolding of one iteration of the grouping loop. -/
lemma build_result_groups_cons (db_path : String)
    (exec_sql : String → String → SQLExecutionResult)
    (is_valid : SQLExecutionResult → Bool) (idx : Nat)
    (r : List NodeCore) (rest : List (List NodeCore)) (gs gsInv : Groups) :
    build_result_groups db_path exec_sql is_valid idx (r :: rest) (gs, gsInv) =
      (if (exec_sql db_path (r.getLast!).final_sql_query).result_type =
          SQLExecutionResultType.success then
        build_result_groups db_path exec_sql is_valid (idx + 1) rest
          ((if is_valid (exec_sql db_path (r.getLast!).final_sql_query) then
              addToGroups
                (exec_sql db_path (r.getLast!).final_sql_query).result.toFinset
                idx gs
            else gs),
           addToGroups
             (exec_sql db_path (r.getLast!).final_sql_query).result.toFinset
             idx gsInv)
      else build_result_groups db_path exec_sql is_valid (idx + 1) rest
        (gs, gsInv)) := rfl

/-- The grouping loop preserves well-formedness of both partitions. -/
lemma build_result_groups_wf (db_path : String)
    (exec_sql : String → String → SQLExecutionResult)
    (is_valid : SQLExecutionResult → Bool) :
    ∀ (results : List (List NodeCore)) (idx : Nat) (acc : Groups × Groups),
      GroupsWF idx acc.1 → GroupsWF idx acc.2 →
      GroupsWF (idx + results.length)
        (build_result_groups db_path exec_sql is_valid idx results acc).1 ∧
      GroupsWF (idx + results.length)
        (build_result_groups db_path exec_sql is_valid idx results acc).2 := by
  intro results
  induction results with
  | nil =>
    intro idx acc h1 h2
    exact ⟨h1, h2⟩
  | cons r rest ih =>
    intro idx acc h1 h2
    obtain ⟨gs, gsInv⟩ := acc
    rw [build_result_groups_cons]
    have hb : (idx + 1) + rest.length = idx + (r :: rest).length := by
      simp [List.length_cons]
      omega
    split_ifs with hsucc hvalid
    · have h := ih (idx + 1)
        (addToGroups (exec_sql db_path (r.getLast!).final_sql_query).result.toFinset idx gs,
         addToGroups (exec_sql db_path (r.getLast!).final_sql_query).result.toFinset idx gsInv)
        (addToGroups_wf _ idx gs h1) (addToGroups_wf _ idx gsInv h2)
      exact hb ▸ h
    · have h := ih (idx + 1)
        (gs,
         addToGroups (exec_sql db_path (r.getLast!).final_sql_query).result.toFinset idx gsInv)
        (GroupsWF_mono idx gs h1) (addToGroups_wf _ idx gsInv h2)
      exact hb ▸ h
    · have h := ih (idx + 1) (gs, gsInv)
        (GroupsWF_mono idx gs h1) (GroupsWF_mono idx gsInv h2)
      exact hb ▸ h

/-- In a non-empty strictly increasing list the head is minimal. -/
lemma sorted_head!_min (l : List Nat) (hne : l ≠ [])
    (hs : l.Sorted (· < ·)) : ∀ j ∈ l, l.head! ≤ j := by
  cases l with
  | nil => cases hne rfl
  | cons a as =>
    intro j hj
    rcases List.mem_cons.mp hj with rfl | hj2
    · exact Nat.le_refl _
    · exact Nat.le_of_lt ((List.pairwise_cons.mp hs).1 j hj2)

/-- Both partitions produced by the grouping loop satisfy the
first-seen representative property. -/
lemma build_result_groups_ok (db_path : String)
    (exec_sql : String → String → SQLExecutionResult)
    (is_valid : SQLExecutionResult → Bool)
    (results : List (List NodeCore)) :
    GroupsOK (build_result_groups db_path exec_sql is_valid 0 results ([], [])).1 ∧
    GroupsOK (build_result_groups db_path exec_sql is_valid 0 results ([], [])).2 := by
  have h := build_result_groups_wf db_path exec_sql is_valid results 0 ([], [])
    (fun g hg => absurd hg (List.not_mem_nil g))
    (fun g hg => absurd hg (List.not_mem_nil g))
  constructor
  · intro g hg
    have hp := h.1 g hg
    exact ⟨hp.1, sorted_head!_min _ hp.1 hp.2.1⟩
  · intro g hg
    have hp := h.2 g hg
    exact ⟨hp.1, sorted_head!_min _ hp.1 hp.2.1⟩

/-- Over any non-empty well-formed partition, the scoring and ranking
rule picks the first-seen representative of a group whose
`(score desc, latency asc)` key dominates all groups. -/
lemma groups_top_spec (db_path : String) (results : List (List NodeCore))
    (measure : String → String → Nat → ℚ) (groups : Groups)
    (hne : groups ≠ []) (hok : GroupsOK groups) :
    ∃ g ∈ groups,
      g.2 ≠ [] ∧ (∀ j ∈ g.2, g.2.head! ≤ j) ∧
      (∀ g2 ∈ groups,
        lexLe (rankKey (group_entry db_path results measure groups g2))
          (rankKey (group_entry db_path results measure groups g))) ∧
      pick_top (rank_groups db_path results measure groups) = g.2.head! := by
  have hentne : rank_groups db_path results measure groups ≠ [] := by
    unfold rank_groups
    simpa using hne
  obtain ⟨e, he, hpick, hmax⟩ := pick_top_spec _ hentne
  rcases List.mem_map.mp he with ⟨g, hgmem, hge⟩
  refine ⟨g, hgmem, (hok g hgmem).1, (hok g hgmem).2, ?_, ?_⟩
  · intro g2 hg2
    have hmem2 : group_entry db_path results measure groups g2 ∈
        rank_groups db_path results measure groups :=
      List.mem_map_of_mem _ hg2
    have hle := hmax _ hmem2
    rw [← hge] at hle
    exact hle
  · rw [hpick, ← hge]
    rfl

/-- Unfolding of `select_final_sql_query` after zeta reduction. -/
lemma select_final_sql_query_eq (question_id : Int) (db_root_dir : String)
    (exec_sql : String → String → SQLExecutionResult)
    (is_valid : SQLExecutionResult → Bool)
    (measure : String → String → Nat → ℚ)
    (results : List (List NodeCore)) :
    select_final_sql_query question_id db_root_dir exec_sql is_valid measure results =
      (if results.length = 0 then
        { question_id := question_id, db_id := "financial", sql := "ERROR" }
      else if (build_result_groups (selector_db_path db_root_dir results)
          exec_sql is_valid 0 results ([], [])).1.length = 0 then
        if (build_result_groups (selector_db_path db_root_dir results)
            exec_sql is_valid 0 results ([], [])).2.length = 0 then
          { question_id := question_id, db_id := selector_db_id results,
            sql := "ERROR" }
        else
          { question_id := question_id, db_id := selector_db_id results,
            sql := (results.get! (pick_top (rank_groups
              (selector_db_path db_root_dir results) results measure
              (build_result_groups (selector_db_path db_root_dir results)
                exec_sql is_valid 0 results ([], [])).2))).getLast!.final_sql_query }
      else
        { question_id := question_id, db_id := selector_db_id results,
          sql := (results.get! (pick_top (rank_groups
            (selector_db_path db_root_dir results) results measure
            (build_result_groups (selector_db_path db_root_dir results)
              exec_sql is_valid 0 results ([], [])).1))).getLast!.final_sql_query }) := rfl

/-- C1. Self-consistency selection over a non-empty primary partition:
every group's ranking entry scores it by group size over the total
primary size, measures latency at its representative, the
representative is the group's first-seen (minimal) path index, and the
function returns the final SQL of a top-ranked group — one whose
`(score descending, latency ascending)` key dominates all groups. -/
theorem C1_primary_selection (question_id : Int) (db_root_dir : String)
    (exec_sql : String → String → SQLExecutionResult)
    (is_valid : SQLExecutionResult → Bool)
    (measure : String → String → Nat → ℚ)
    (results : List (List NodeCore))
    (hres : results ≠ [])
    (hg : (build_result_groups (selector_db_path db_root_dir results)
      exec_sql is_valid 0 results ([], [])).1 ≠ []) :
    (∀ g2 ∈ (build_result_groups (selector_db_path db_root_dir results)
        exec_sql is_valid 0 results ([], [])).1,
      group_entry (selector_db_path db_root_dir results) results measure
          (build_result_groups (selector_db_path db_root_dir results)
            exec_sql is_valid 0 results ([], [])).1 g2 =
        (g2.2.head!,
         (g2.2.length : ℚ) /
           (((build_result_groups (selector_db_path db_root_dir results)
                exec_sql is_valid 0 results ([], [])).1.map
              fun v => v.2.length).sum : Nat),
         measure (selector_db_path db_root_dir results)
           ((results.get! g2.2.head!).getLast!.final_sql_query)
           EXECUTION_TIME_REPEAT)) ∧
    ∃ g ∈ (build_result_groups (selector_db_path db_root_dir results)
        exec_sql is_valid 0 results ([], [])).1,
      g.2 ≠ [] ∧ (∀ j ∈ g.2, g.2.head! ≤ j) ∧
      (∀ g2 ∈ (build_result_groups (selector_db_path db_root_dir results)
          exec_sql is_valid 0 results ([], [])).1,
        lexLe
          (rankKey (group_entry (selector_db_path db_root_dir results)
            results measure
            (build_result_groups (selector_db_path db_root_dir results)
              exec_sql is_valid 0 results ([], [])).1 g2))
          (rankKey (group_entry (selector_db_path db_root_dir results)
            results measure
            (build_result_groups (selector_db_path db_root_dir results)
              exec_sql is_valid 0 results ([], [])).1 g))) ∧
      select_final_sql_query question_id db_root_dir exec_sql is_valid
          measure results =
        { question_id := question_id, db_id := selector_db_id results,
          sql := (results.get! g.2.head!).getLast!.final_sql_query } := by
  refine ⟨fun g2 _ => rfl, ?_⟩
  obtain ⟨g, hgmem, hne2, hmin, hmax, hpick⟩ :=
    groups_top_spec (selector_db_path db_root_dir results) results measure _
      hg (build_result_groups_ok (selector_db_path db_root_dir results)
        exec_sql is_valid results).1
  refine ⟨g, hgmem, hne2, hmin, hmax, ?_⟩
  rw [select_final_sql_query_eq]
  rw [if_neg (fun hc => hres (List.length_eq_zero.mp hc)),
    if_neg (fun hc => hg (List.length_eq_zero.mp hc))]
  rw [hpick]

/-- Witness for C1 on three paths with row sets grouping 2-1: both
hypotheses hold at the fixture input. -/
theorem C1_primary_selection_witness :
    (resultsC1 ≠ [] ∧
      (build_result_groups (selector_db_path "db" resultsC1)
        execC1 validC1 0 resultsC1 ([], [])).1 ≠ []) ∧
    ((∀ g2 ∈ (build_result_groups (selector_db_path "db" resultsC1)
        execC1 validC1 0 resultsC1 ([], [])).1,
      group_entry (selector_db_path "db" resultsC1) resultsC1 measureC1
          (build_result_groups (selector_db_path "db" resultsC1)
            execC1 validC1 0 resultsC1 ([], [])).1 g2 =
        (g2.2.head!,
         (g2.2.length : ℚ) /
           (((build_result_groups (selector_db_path "db" resultsC1)
                execC1 validC1 0 resultsC1 ([], [])).1.map
              fun v => v.2.length).sum : Nat),
         measureC1 (selector_db_path "db" resultsC1)
           ((resultsC1.get! g2.2.head!).getLast!.final_sql_query)
           EXECUTION_TIME_REPEAT)) ∧
    ∃ g ∈ (build_result_groups (selector_db_path "db" resultsC1)
        execC1 validC1 0 resultsC1 ([], [])).1,
      g.2 ≠ [] ∧ (∀ j ∈ g.2, g.2.head! ≤ j) ∧
      (∀ g2 ∈ (build_result_groups (selector_db_path "db" resultsC1)
          execC1 validC1 0 resultsC1 ([], [])).1,
        lexLe
          (rankKey (group_entry (selector_db_path "db" resultsC1)
            resultsC1 measureC1
            (build_result_groups (selector_db_path "db" resultsC1)
              execC1 validC1 0 resultsC1 ([], [])).1 g2))
          (rankKey (group_entry (selector_db_path "db" resultsC1)
            resultsC1 measureC1
            (build_result_groups (selector_db_path "db" resultsC1)
              execC1 validC1 0 resultsC1 ([], [])).1 g))) ∧
      select_final_sql_query 7 "db" execC1 validC1 measureC1 resultsC1 =
        { question_id := 7, db_id := selector_db_id resultsC1,
          sql := (resultsC1.get! g.2.head!).getLast!.final_sql_query }) :=
  ⟨⟨by decide, by decide⟩,
    C1_primary_selection 7 "db" execC1 validC1 measureC1 resultsC1
      (by decide) (by decide)⟩

/-- Counterexample to C4 as stated: a persisted path exists but every
execution fails, so both partitions are empty, yet the selector returns
the first path's own database identifier, not the default one. -/
theorem C4_counterexample :
    select_final_sql_query 7 "db"
        (fun _ _ => { result_type := SQLExecutionResultType.error })
        (fun _ => true) (fun _ _ _ => 0)
        [[{ db_id := "toxicology", final_sql_query := "SELECT 1" }]] =
      { question_id := 7, db_id := "toxicology", sql := "ERROR" } ∧
    ("toxicology" : String) ≠ "financial" := by
  exact ⟨rfl, by decide⟩

/-- C4 amended. With both partitions empty, the selector returns the
error marker; the database identifier is the default `financial` only
when no paths were persisted, and is the first persisted path's
identifier when paths exist but none grouped successfully. -/
theorem C4_amended_error_output (question_id : Int) (db_root_dir : String)
    (exec_sql : String → String → SQLExecutionResult)
    (is_valid : SQLExecutionResult → Bool)
    (measure : String → String → Nat → ℚ)
    (results : List (List NodeCore)) :
    (results = [] →
      select_final_sql_query question_id db_root_dir exec_sql is_valid
          measure results =
        { question_id := question_id, db_id := "financial", sql := "ERROR" }) ∧
    (results ≠ [] →
      (build_result_groups (selector_db_path db_root_dir results)
        exec_sql is_valid 0 results ([], [])).1 = [] →
      (build_result_groups (selector_db_path db_root_dir results)
        exec_sql is_valid 0 results ([], [])).2 = [] →
      select_final_sql_query question_id db_root_dir exec_sql is_valid
          measure results =
        { question_id := question_id, db_id := selector_db_id results,
          sql := "ERROR" }) := by
  constructor
  · intro h
    subst h
    rfl
  · intro hres h1 h2
    rw [select_final_sql_query_eq]
    rw [if_neg (fun hc => hres (List.length_eq_zero.mp hc)),
      if_pos (by rw [h1]; rfl), if_pos (by rw [h2]; rfl)]

/-- Witness for the amended C4 in both cases: the empty input, and a
non-empty input whose single execution fails. -/
theorem C4_amended_error_output_witness :
    (([] : List (List NodeCore)) = [] ∧
      ([[({ db_id := "toxicology", final_sql_query := "SELECT 1" } : NodeCore)]] ≠
        ([] : List (List NodeCore))) ∧
      (build_result_groups
        (selector_db_path "db"
          [[{ db_id := "toxicology", final_sql_query := "SELECT 1" }]])
        (fun _ _ => { result_type := SQLExecutionResultType.error })
        (fun _ => true) 0
        [[{ db_id := "toxicology", final_sql_query := "SELECT 1" }]]
        ([], [])).1 = [] ∧
      (build_result_groups
        (selector_db_path "db"
          [[{ db_id := "toxicology", final_sql_query := "SELECT 1" }]])
        (fun _ _ => { result_type := SQLExecutionResultType.error })
        (fun _ => true) 0
        [[{ db_id := "toxicology", final_sql_query := "SELECT 1" }]]
        ([], [])).2 = []) ∧
    (select_final_sql_query 3 "db"
        (fun _ _ => { result_type := SQLExecutionResultType.error })
        (fun _ => true) (fun _ _ _ => 0) ([] : List (List NodeCore)) =
      { question_id := 3, db_id := "financial", sql := "ERROR" }) ∧
    (select_final_sql_query 7 "db"
        (fun _ _ => { result_type := SQLExecutionResultType.error })
        (fun _ => true) (fun _ _ _ => 0)
        [[{ db_id := "toxicology", final_sql_query := "SELECT 1" }]] =
      { question_id := 7,
        db_id := selector_db_id
          [[{ db_id := "toxicology", final_sql_query := "SELECT 1" }]],
        sql := "ERROR" }) := by
  have h1 : ([] : List (List NodeCore)) = [] := rfl
  have h2 : [[({ db_id := "toxicology", final_sql_query := "SELECT 1" } : NodeCore)]] ≠
      ([] : List (List NodeCore)) := by decide
  have h3 : (build_result_groups
      (selector_db_path "db"
        [[{ db_id := "toxicology", final_sql_query := "SELECT 1" }]])
      (fun _ _ => { result_type := SQLExecutionResultType.error })
      (fun _ => true) 0
      [[{ db_id := "toxicology", final_sql_query := "SELECT 1" }]]
      ([], [])).1 = [] := by decide
  have h4 : (build_result_groups
      (selector_db_path "db"
        [[{ db_id := "toxicology", final_sql_query := "SELECT 1" }]])
      (fun _ _ => { result_type := SQLExecutionResultType.error })
      (fun _ => true) 0
      [[{ db_id := "toxicology", final_sql_query := "SELECT 1" }]]
      ([], [])).2 = [] := by decide
  exact ⟨⟨h1, h2, h3, h4⟩,
    (C4_amended_error_output 3 "db"
      (fun _ _ => { result_type := SQLExecutionResultType.error })
      (fun _ => true) (fun _ _ _ => 0) []).1 h1,
    (C4_amended_error_output 7 "db"
      (fun _ _ => { result_type := SQLExecutionResultType.error })
      (fun _ => true) (fun _ _ _ => 0)
      [[{ db_id := "toxicology", final_sql_query := "SELECT 1" }]]).2 h2 h3 h4⟩

/-- C5. The invalid-inclusive partition is consulted exactly when the
primary partition is empty: with a non-empty primary partition the
output is computed by the ranking rule over the primary partition
alone, and with an empty primary but non-empty fallback partition the
same scoring/ranking rule runs over the fallback partition and the
selector returns its top representative's final SQL. -/
theorem C5_fallback_partition (question_id : Int) (db_root_dir : String)
    (exec_sql : String → String → SQLExecutionResult)
    (is_valid : SQLExecutionResult → Bool)
    (measure : String → String → Nat → ℚ)
    (results : List (List NodeCore))
    (hres : results ≠ []) :
    ((build_result_groups (selector_db_path db_root_dir results)
        exec_sql is_valid 0 results ([], [])).1 ≠ [] →
      select_final_sql_query question_id db_root_dir exec_sql is_valid
          measure results =
        { question_id := question_id, db_id := selector_db_id results,
          sql := (results.get! (pick_top (rank_groups
            (selector_db_path db_root_dir results) results measure
            (build_result_groups (selector_db_path db_root_dir results)
              exec_sql is_valid 0 results
              ([], [])).1))).getLast!.final_sql_query }) ∧
    ((build_result_groups (selector_db_path db_root_dir results)
        exec_sql is_valid 0 results ([], [])).1 = [] →
      (build_result_groups (selector_db_path db_root_dir results)
        exec_sql is_valid 0 results ([], [])).2 ≠ [] →
      ∃ g ∈ (build_result_groups (selector_db_path db_root_dir results)
          exec_sql is_valid 0 results ([], [])).2,
        g.2 ≠ [] ∧ (∀ j ∈ g.2, g.2.head! ≤ j) ∧
        (∀ g2 ∈ (build_result_groups (selector_db_path db_root_dir results)
            exec_sql is_valid 0 results ([], [])).2,
          lexLe
            (rankKey (group_entry (selector_db_path db_root_dir results)
              results measure
              (build_result_groups (selector_db_path db_root_dir results)
                exec_sql is_valid 0 results ([], [])).2 g2))
            (rankKey (group_entry (selector_db_path db_root_dir results)
              results measure
              (build_result_groups (selector_db_path db_root_dir results)
                exec_sql is_valid 0 results ([], [])).2 g))) ∧
        select_final_sql_query question_id db_root_dir exec_sql is_valid
            measure results =
          { question_id := question_id, db_id := selector_db_id results,
            sql := (results.get! g.2.head!).getLast!.final_sql_query }) := by
  constructor
  · intro hg
    rw [select_final_sql_query_eq]
    rw [if_neg (fun hc => hres (List.length_eq_zero.mp hc)),
      if_neg (fun hc => hg (List.length_eq_zero.mp hc))]
  · intro hg hginv
    obtain ⟨g, hgmem, hne2, hmin, hmax, hpick⟩ :=
      groups_top_spec (selector_db_path db_root_dir results) results measure _
        hginv (build_result_groups_ok (selector_db_path db_root_dir results)
          exec_sql is_valid results).2
    refine ⟨g, hgmem, hne2, hmin, hmax, ?_⟩
    rw [select_final_sql_query_eq]
    rw [if_neg (fun hc => hres (List.length_eq_zero.mp hc)),
      if_pos (by rw [hg]; rfl),
      if_neg (fun hc => hginv (List.length_eq_zero.mp hc))]
    rw [hpick]

/-- Witness for C5: with a validity predicate rejecting everything the
primary partition is empty and the fallback partition is used. -/
theorem C5_fallback_partition_witness :
    (resultsC1 ≠ [] ∧
      (build_result_groups (selector_db_path "db" resultsC1)
        execC1 validC5 0 resultsC1 ([], [])).1 = [] ∧
      (build_result_groups (selector_db_path "db" resultsC1)
        execC1 validC5 0 resultsC1 ([], [])).2 ≠ []) ∧
    ∃ g ∈ (build_result_groups (selector_db_path "db" resultsC1)
        execC1 validC5 0 resultsC1 ([], [])).2,
      g.2 ≠ [] ∧ (∀ j ∈ g.2, g.2.head! ≤ j) ∧
      (∀ g2 ∈ (build_result_groups (selector_db_path "db" resultsC1)
          execC1 validC5 0 resultsC1 ([], [])).2,
        lexLe
          (rankKey (group_entry (selector_db_path "db" resultsC1)
            resultsC1 measureC1
            (build_result_groups (selector_db_path "db" resultsC1)
              execC1 validC5 0 resultsC1 ([], [])).2 g2))
          (rankKey (group_entry (selector_db_path "db" resultsC1)
            resultsC1 measureC1
            (build_result_groups (selector_db_path "db" resultsC1)
              execC1 validC5 0 resultsC1 ([], [])).2 g))) ∧
      select_final_sql_query 9 "db" execC1 validC5 measureC1 resultsC1 =
        { question_id := 9, db_id := selector_db_id resultsC1,
          sql := (resultsC1.get! g.2.head!).getLast!.final_sql_query } := by
  have hres : resultsC1 ≠ [] := by decide
  have hg : (build_result_groups (selector_db_path "db" resultsC1)
      execC1 validC5 0 resultsC1 ([], [])).1 = [] := by decide
  have hginv : (build_result_groups (selector_db_path "db" resultsC1)
      execC1 validC5 0 resultsC1 ([], [])).2 ≠ [] := by decide
  exact ⟨⟨hres, hg, hginv⟩,
    (C5_fallback_partition 9 "db" execC1 validC5 measureC1 resultsC1
      hres).2 hg hginv⟩

end AlphaSQL
